import Mathlib

/-
Verification development for the codepy JIT compilation cache
(src/codepy/jit.py, with the toolchain contract of src/codepy/toolchain.py).

The embedding is shallow: file contents are byte lists, directories are
association lists keyed by path strings, and the MD5 digest is modelled by
an arbitrary digest function H from byte strings to hex strings, threaded
through every definition exactly where hashlib.md5 is used in the source.
Stateful code (the cache directory tree, the lock file) is explicit state
passing on a World record.
-/

set_option autoImplicit false

abbrev Bytes := List Nat

/-- Association-list lookup over string keys; models reading a directory
entry (or a dict access) by name. Mirrors a filesystem lookup: the first
binding for a key wins. -/
def lookupA {α : Type} : List (String × α) → String → Option α
  | [], _ => none
  | (k, v) :: rest, key => if k = key then some v else lookupA rest key

/-- Remove every binding for a key; models deleting a directory entry. -/
def removeA {α : Type} : List (String × α) → String → List (String × α)
  | [], _ => []
  | (k, v) :: rest, key =>
      if k = key then removeA rest key else (k, v) :: removeA rest key

/-- Overwrite the binding for a key; models writing a file at a path
(truncating any previous content). -/
def setA {α : Type} (l : List (String × α)) (key : String) (v : α) :
    List (String × α) :=
  (key, v) :: removeA l key

theorem lookupA_removeA_ne {α : Type} (l : List (String × α)) (k key : String)
    (h : k ≠ key) : lookupA (removeA l k) key = lookupA l key := by
  induction l with
  | nil => rfl
  | cons hd tl ih =>
      obtain ⟨k0, v0⟩ := hd
      simp only [removeA]
      split
      · next hk =>
          subst hk
          rw [ih]
          simp only [lookupA]
          rw [if_neg h]
      · next hk =>
          simp only [lookupA]
          split
          · rfl
          · exact ih

theorem lookupA_removeA_self {α : Type} (l : List (String × α)) (k : String) :
    lookupA (removeA l k) k = none := by
  induction l with
  | nil => rfl
  | cons hd tl ih =>
      obtain ⟨k0, v0⟩ := hd
      simp only [removeA]
      split
      · exact ih
      · next hk =>
          simp only [lookupA]
          rw [if_neg hk]
          exact ih

theorem lookupA_setA_self {α : Type} (l : List (String × α)) (k : String)
    (v : α) : lookupA (setA l k v) k = some v := by
  simp [setA, lookupA]

theorem lookupA_setA_ne {α : Type} (l : List (String × α)) (k key : String)
    (v : α) (h : k ≠ key) : lookupA (setA l k v) key = lookupA l key := by
  simp only [setA, lookupA]
  rw [if_neg h]
  exact lookupA_removeA_ne l k key h

/-- Model of a hashlib digest object: the state is the concatenation of all
bytes fed to update so far; hexdigest applies the digest function H to the
accumulated stream (hashlib semantics: the digest depends only on the
concatenation of the update inputs). -/
structure HashObj where
  data : Bytes
deriving DecidableEq, Repr

def HashObj.new : HashObj := ⟨[]⟩

def HashObj.update (h : HashObj) (bs : Bytes) : HashObj := ⟨h.data ++ bs⟩

def HashObj.hexdigest (H : Bytes → String) (h : HashObj) : String := H h.data

theorem HashObj.update_data (h : HashObj) (bs : Bytes) :
    (HashObj.update h bs).data = h.data ++ bs := rfl

theorem HashObj.new_data : HashObj.new.data = [] := rfl

/-- Embeds calculate_hex_checksum (jit.py lines 352-364): a fresh md5 object
is updated with each source byte string in order (a str source is its utf-8
encoding, already a byte string here), then with the encoded serialization of
toolchain.abi_id(), and the hex digest is returned. -/
def calculate_hex_checksum (H : Bytes → String) (source_string : List Bytes)
    (abi : Bytes) : String :=
  HashObj.hexdigest H
    ((source_string.foldl (fun c s => HashObj.update c s) HashObj.new).update abi)

theorem foldl_update_data (source_string : List Bytes) (c : HashObj) :
    (source_string.foldl (fun c s => HashObj.update c s) c).data
      = c.data ++ source_string.flatten := by
  induction source_string generalizing c with
  | nil => simp
  | cons s rest ih =>
      rw [List.foldl_cons, ih, List.flatten_cons]
      simp [HashObj.update, List.append_assoc]

theorem calculate_hex_checksum_eq (H : Bytes → String)
    (source_string : List Bytes) (abi : Bytes) :
    calculate_hex_checksum H source_string abi
      = H (source_string.flatten ++ abi) := by
  simp only [calculate_hex_checksum, HashObj.hexdigest, HashObj.update_data,
    foldl_update_data, HashObj.new_data, List.nil_append]

/-- Embeds the _Dependency named tuple (jit.py lines 244-247): a recorded
dependency path with the modification time and content digest captured when
the snapshot was taken. -/
structure Dependency where
  name : String
  mtime : Int
  md5 : String
deriving DecidableEq, Repr

/-- Embeds the _SourceInfo dataclass (jit.py lines 250-253): the manifest
pickled into the info file of a cache entry. -/
structure SourceInfo where
  dependencies : List Dependency
  source_name : List String
deriving DecidableEq, Repr

/-- Live state of a dependency file on disk: its current modification time
and current content. -/
structure DepFile where
  mtime : Int
  content : Bytes
deriving DecidableEq, Repr

/-- Embeds get_file_md5sum (jit.py lines 333-340) on a live file map:
the digest of the current content of a file. -/
def get_file_md5sum (H : Bytes → String) (df : DepFile) : String :=
  H df.content

/-- Embeds check_deps (jit.py lines 375-393). For each recorded dependency:
if os.stat fails (the file is gone) the entry is stale; otherwise, if the
live mtime differs from the recorded one AND the recorded digest differs
from the digest of the live content, the entry is stale; otherwise the scan
continues. Returns true when every record passes. -/
def check_deps (H : Bytes → String) (live : List (String × DepFile)) :
    List Dependency → Bool
  | [] => true
  | d :: rest =>
      match lookupA live d.name with
      | none => false
      | some df =>
          if df.mtime ≠ d.mtime ∧ d.md5 ≠ get_file_md5sum H df then false
          else check_deps H live rest

/-- Embeds the loop body of check_source (jit.py lines 395-413) over the
files of one cache entry: walks the recorded source names, reading
source_string[i] (an out-of-range index raises, modelled as none), then the
persisted file (a missing file returns some false: recompile), and otherwise
accumulates the byte-for-byte comparison in valid. -/
def check_source_go (files : List (String × Bytes)) (src : List Bytes) :
    Bool → Nat → List String → Option Bool
  | valid, _, [] => some valid
  | valid, i, p :: rest =>
      match src[i]? with
      | none => none
      | some s =>
          match lookupA files p with
          | none => some false
          | some content =>
              check_source_go files src (valid && decide (content = s)) (i + 1) rest

/-- Embeds check_source (jit.py lines 395-413), started with valid = True at
index 0 as in the source. -/
def check_source (files : List (String × Bytes)) (src : List Bytes)
    (paths : List String) : Option Bool :=
  check_source_go files src true 0 paths

/-- Embeds write_source (jit.py lines 347-350): writes each source string to
the file named name[i]; running out of names raises IndexError, modelled by
the false flag (the files written so far remain). -/
def write_source_go :
    List (String × Bytes) → List String → List Bytes → List (String × Bytes) × Bool
  | fs, _, [] => (fs, true)
  | fs, [], _ :: _ => (fs, false)
  | fs, n :: ns, s :: ss => write_source_go (setA fs n s) ns ss

/-- Insertion step for the model of the sorted builtin on strings. -/
def insertSorted (x : String) : List String → List String
  | [] => [x]
  | y :: rest => if x ≤ y then x :: y :: rest else y :: insertSorted x rest

/-- Model of sorted(...) over a list of strings. -/
def sortStrings (l : List String) : List String := l.foldr insertSorted []

theorem mem_insertSorted (x y : String) (l : List String) :
    y ∈ insertSorted x l ↔ y = x ∨ y ∈ l := by
  induction l with
  | nil => simp [insertSorted]
  | cons z rest ih =>
      simp only [insertSorted]
      split
      · simp only [List.mem_cons]
      · simp only [List.mem_cons, ih]
        tauto

theorem mem_sortStrings (x : String) (l : List String) :
    x ∈ sortStrings l ↔ x ∈ l := by
  induction l with
  | nil => simp [sortStrings]
  | cons y rest ih =>
      simp only [sortStrings, List.foldr_cons] at ih ⊢
      rw [mem_insertSorted, ih, List.mem_cons]

/-- Snapshot construction over an already filtered, sorted dependency list:
for each path, os.stat and the content digest of the live file (jit.py line
344); a missing file makes os.stat raise, modelled as none. -/
def snapshotOf (H : Bytes → String) (live : List (String × DepFile)) :
    List String → Option (List Dependency)
  | [] => some []
  | d :: rest =>
      match lookupA live d with
      | none => none
      | some df =>
          match snapshotOf H live rest with
          | none => none
          | some snap => some (Dependency.mk d df.mtime (get_file_md5sum H df) :: snap)

/-- Embeds get_dep_structure (jit.py lines 342-345): the toolchain reports a
set of dependency paths (modelled by dedup of the reported list); these are
sorted, the compiled source paths themselves are filtered out, and each
survivor is recorded with its current mtime and content digest. -/
def get_dep_structure (H : Bytes → String) (live : List (String × DepFile))
    (reported : List String) (source_paths : List String) :
    Option (List Dependency) :=
  snapshotOf H live
    ((sortStrings reported.dedup).filter (fun d => decide (d ∉ source_paths)))

/-- Manifest file state in a cache entry: a valid pickled _SourceInfo, or a
file whose pickle.load (or open) fails, raising _InvalidInfoFileError
(jit.py lines 366-373). -/
inductive InfoFile
  | valid (si : SourceInfo)
  | corrupt
deriving DecidableEq, Repr

/-- One on-disk cache entry directory: the optional manifest file named
info, and the remaining files (persisted sources, built artifact) keyed by
file name. -/
structure Entry where
  infoFile : Option InfoFile
  files : List (String × Bytes)
deriving DecidableEq, Repr

/-- The mutable world compile_from_string acts on: the live dependency
files outside the cache, the cache entry directories keyed by hex
fingerprint, and whether the lock file currently exists in the cache
root. -/
structure World where
  deps : List (String × DepFile)
  entries : List (String × Entry)
  lockPresent : Bool
deriving DecidableEq, Repr

/-- Abstracted toolchain collaborator, the contract compile_from_string
consumes (toolchain.py): whether it is a GCCLikeToolchain, its serialized
abi_id, the two artifact extensions, the dependency report for given source
paths, and build behaviour (success flag and produced artifact bytes). -/
structure ToolchainM where
  isGccLike : Bool
  abi : Bytes
  o_ext : String
  so_ext : String
  getDeps : List String → List String
  buildOk : Bool
  artifact : Bytes

/-- Result of one compile_from_string call: the returned tuple on success,
or the exception class that escaped. The blocked result stands for the lock
acquisition loop never exiting because the lock file exists and, in this
single-process model, nobody ever removes it. -/
inductive RunResult
  | ok (checksum mod_name ext_file : String) (rebuilt : Bool)
  | typeError
  | indexError
  | osError
  | compileError
  | blocked
deriving DecidableEq, Repr

/-- Outcome of a call: result, final world, and how many times one of the
toolchain build operations (build_object / build_extension) was invoked. -/
structure Outcome where
  res : RunResult
  world : World
  buildCalls : Nat
deriving DecidableEq, Repr

/-- The module name computed at jit.py line 423. -/
def mod_name_of (hex name : String) : String :=
  "codepy.temp." ++ hex ++ "." ++ name

/-- The artifact path ext_file inside the entry directory (jit.py line
432), rendered as an entry-relative path string. -/
def ext_file_of (hex name suffix : String) : String :=
  hex ++ "/" ++ name ++ suffix

/-- The suffix chosen at jit.py lines 424-427. -/
def entrySuffix (tc : ToolchainM) (object : Bool) : String :=
  if object then tc.o_ext else tc.so_ext

/-- The source paths inside the entry directory (jit.py line 452). -/
def source_paths_of (hex : String) (sn : List String) : List String :=
  sn.map (fun n => hex ++ "/" ++ n)

/-- The exception exit of compile_from_string (jit.py lines 470-474):
cleanup_m.error_clean_up() runs the error teardown of each registered
cleanup - ModuleCacheDirManager.error_clean_up erases the entry directory,
but only when the directory was freshly created by this call (only then was
the manager registered, jit.py lines 170-180); then the finally block
releases the lock. entryNow is the on-disk entry state at the moment the
exception was raised. -/
def errorExit (e : RunResult) (hex : String) (fresh : Bool) (entryNow : Entry)
    (w : World) (bc : Nat) : Outcome :=
  if fresh then ⟨e, ⟨w.deps, removeA w.entries hex, false⟩, bc⟩
  else ⟨e, ⟨w.deps, setA w.entries hex entryNow, false⟩, bc⟩

/-- The rebuild path of compile_from_string (jit.py lines 452-469): write
the sources into the entry directory, invoke the toolchain build (raising
CompileError on failure), compute the dependency snapshot (os.stat on a
missing dependency raises OSError), and pickle the manifest last. On
success the lock is released by the finally block. -/
def doRebuild (H : Bytes → String) (tc : ToolchainM) (name hex suffix : String)
    (ss : List Bytes) (sn sp : List String) (fresh : Bool) (entry0 : Entry)
    (w : World) : Outcome :=
  match write_source_go entry0.files sn ss with
  | (files1, false) =>
      errorExit RunResult.indexError hex fresh ⟨entry0.infoFile, files1⟩ w 0
  | (files1, true) =>
      if tc.buildOk then
        match get_dep_structure H w.deps (tc.getDeps sp) sp with
        | none =>
            errorExit RunResult.osError hex fresh
              ⟨entry0.infoFile, setA files1 (name ++ suffix) tc.artifact⟩ w 1
        | some snap =>
            ⟨RunResult.ok hex (mod_name_of hex name) (ext_file_of hex name suffix) true,
             ⟨w.deps,
              setA w.entries hex
                ⟨some (InfoFile.valid ⟨snap, sn⟩),
                 setA files1 (name ++ suffix) tc.artifact⟩,
              false⟩,
             1⟩
      else errorExit RunResult.compileError hex fresh ⟨entry0.infoFile, files1⟩ w 1

/-- The body of compile_from_string after the lock is held and the
fingerprint computed (jit.py lines 429-469): resolve the entry directory
(mkdir is the existence test), load and validate the manifest, and either
return the cache hit or fall through to the rebuild path. A corrupt or
unreadable manifest resets the entry (jit.py lines 434-442); failed
dependency or source validation falls through without a reset. -/
def lookup_and_build (H : Bytes → String) (tc : ToolchainM)
    (name hex suffix : String) (ss : List Bytes) (sn sp : List String)
    (w : World) : Outcome :=
  match lookupA w.entries hex with
  | none =>
      doRebuild H tc name hex suffix ss sn sp true ⟨none, []⟩ w
  | some entry =>
      match entry.infoFile with
      | some (InfoFile.valid si) =>
          if check_deps H w.deps si.dependencies = true then
            match check_source entry.files ss si.source_name with
            | none => ⟨RunResult.indexError, ⟨w.deps, w.entries, false⟩, 0⟩
            | some true =>
                ⟨RunResult.ok hex (mod_name_of hex name)
                    (ext_file_of hex name suffix) false,
                 ⟨w.deps, w.entries, false⟩, 0⟩
            | some false =>
                doRebuild H tc name hex suffix ss sn sp false entry w
          else doRebuild H tc name hex suffix ss sn sp false entry w
      | some InfoFile.corrupt =>
          doRebuild H tc name hex suffix ss sn sp false ⟨none, []⟩ w
      | none =>
          doRebuild H tc name hex suffix ss sn sp false ⟨none, []⟩ w

/-- Embeds compile_from_string (jit.py lines 256-474) with a cache
directory in use. The toolchain type check (line 300) precedes everything;
then the lock file is created exclusively (CacheLockManager) - when the
lock file already exists the retry loop never exits in this single-process
world, modelled by the blocked result; then the fingerprint is computed and
the cache consulted. Every exit path below the lock acquisition removes the
lock file again (the finally block at line 473 runs
CacheLockManager.clean_up, jit.py lines 160-163). -/
def compile_from_string (H : Bytes → String) (tc : ToolchainM) (name : String)
    (ss : List Bytes) (sn : List String) (object : Bool) (w : World) : Outcome :=
  if tc.isGccLike = false then ⟨RunResult.typeError, w, 0⟩
  else if w.lockPresent = true then ⟨RunResult.blocked, w, 0⟩
  else
    lookup_and_build H tc name (calculate_hex_checksum H ss tc.abi)
      (entrySuffix tc object) ss sn
      (source_paths_of (calculate_hex_checksum H ss tc.abi) sn) w

/-- Result of the lock acquisition loop when it exits: how many failed
attempts preceded the successful exclusive create, and how many warnings
were emitted. -/
structure LockAcquireResult where
  attemptsUsed : Nat
  warnings : Nat
deriving DecidableEq, Repr

/-- Embeds the retry loop of CacheLockManager.__init__ (jit.py lines
138-156) against a finite observation of successive os.open outcomes (true
= the exclusive create succeeded). The loop breaks only on a successful
create; a failed attempt sleeps, increments the attempt counter and, once
more than 10 attempts have failed, emits a warning - and then retries
again. Exhausting the observed outcomes without a success means the loop is
still running, modelled by none. -/
def acquire_lock : List Bool → Nat → Nat → Option LockAcquireResult
  | [], _, _ => none
  | true :: _, attempts, warns => some ⟨attempts, warns⟩
  | false :: rest, attempts, warns =>
      acquire_lock rest (attempts + 1)
        (if attempts + 1 > 10 then warns + 1 else warns)

/-- The cache_dir argument of compile_from_string: None, the documented
no-caching sentinel False, or a directory path. -/
inductive CacheDirArg
  | noneArg
  | falseArg
  | pathArg (p : String)
deriving DecidableEq, Repr

/-- Embeds the cache_dir defaulting at jit.py lines 316-331: only None is
replaced by the per-user default cache root; any other value is passed on
unchanged. -/
def default_cache_dir (defaultRoot : String) (arg : CacheDirArg) : CacheDirArg :=
  match arg with
  | CacheDirArg.noneArg => CacheDirArg.pathArg defaultRoot
  | a => a

/-- Embeds the entry of CacheLockManager.__init__ (jit.py lines 135-136):
when cache_dir is not None the lock file path is os.path.join(cache_dir,
"lock"); os.path.join raises TypeError when handed the bool False, and
when cache_dir is None no lock is used at all. -/
def lock_file_of (arg : CacheDirArg) : Except RunResult (Option String) :=
  match arg with
  | CacheDirArg.pathArg p => Except.ok (some (p ++ "/lock"))
  | CacheDirArg.falseArg => Except.error RunResult.typeError
  | CacheDirArg.noneArg => Except.ok none

/-- The composed cache_dir handling of one compile_from_string call: apply
the default, then compute the lock file path inside CacheLockManager. -/
def cache_dir_setup (defaultRoot : String) (arg : CacheDirArg) :
    Except RunResult (Option String) :=
  lock_file_of (default_cache_dir defaultRoot arg)

theorem snapshotOf_mem (H : Bytes → String) (live : List (String × DepFile)) :
    ∀ (l : List String) (snap : List Dependency),
      snapshotOf H live l = some snap →
      ∀ d, d ∈ snap →
        d.name ∈ l ∧ ∃ df, lookupA live d.name = some df ∧
          d.mtime = df.mtime ∧ d.md5 = get_file_md5sum H df := by
  intro l
  induction l with
  | nil =>
      intro snap hs d hd
      simp only [snapshotOf, Option.some.injEq] at hs
      subst hs
      simp at hd
  | cons p rest ih =>
      intro snap hs d hd
      simp only [snapshotOf] at hs
      cases hlp : lookupA live p with
      | none => rw [hlp] at hs; exact absurd hs (by simp)
      | some df =>
          rw [hlp] at hs
          cases hrest : snapshotOf H live rest with
          | none => rw [hrest] at hs; exact absurd hs (by simp)
          | some snap0 =>
              rw [hrest] at hs
              simp only [Option.some.injEq] at hs
              subst hs
              rcases List.mem_cons.mp hd with heq | hmem
              · subst heq
                exact ⟨List.mem_cons_self p rest, df, hlp, rfl, rfl⟩
              · obtain ⟨hin, df2, h1, h2, h3⟩ := ih snap0 hrest d hmem
                exact ⟨List.mem_cons_of_mem p hin, df2, h1, h2, h3⟩

theorem snapshotOf_complete (H : Bytes → String) (live : List (String × DepFile)) :
    ∀ (l : List String) (snap : List Dependency),
      snapshotOf H live l = some snap →
      ∀ p, p ∈ l →
        ∃ df, lookupA live p = some df ∧
          Dependency.mk p df.mtime (get_file_md5sum H df) ∈ snap := by
  intro l
  induction l with
  | nil =>
      intro snap hs p hp
      simp at hp
  | cons q rest ih =>
      intro snap hs p hp
      simp only [snapshotOf] at hs
      cases hlq : lookupA live q with
      | none => rw [hlq] at hs; exact absurd hs (by simp)
      | some df =>
          rw [hlq] at hs
          cases hrest : snapshotOf H live rest with
          | none => rw [hrest] at hs; exact absurd hs (by simp)
          | some snap0 =>
              rw [hrest] at hs
              simp only [Option.some.injEq] at hs
              subst hs
              rcases List.mem_cons.mp hp with heq | hmem
              · subst heq
                exact ⟨df, hlq, List.mem_cons_self _ _⟩
              · obtain ⟨df2, h1, h2⟩ := ih snap0 hrest p hmem
                exact ⟨df2, h1, List.mem_cons_of_mem _ h2⟩

theorem check_deps_snapshotOf (H : Bytes → String) (live : List (String × DepFile)) :
    ∀ (l : List String) (snap : List Dependency),
      snapshotOf H live l = some snap →
      check_deps H live snap = true := by
  intro l
  induction l with
  | nil =>
      intro snap hs
      simp only [snapshotOf, Option.some.injEq] at hs
      subst hs
      rfl
  | cons p rest ih =>
      intro snap hs
      simp only [snapshotOf] at hs
      cases hlp : lookupA live p with
      | none => rw [hlp] at hs; exact absurd hs (by simp)
      | some df =>
          rw [hlp] at hs
          cases hrest : snapshotOf H live rest with
          | none => rw [hrest] at hs; exact absurd hs (by simp)
          | some snap0 =>
              rw [hrest] at hs
              simp only [Option.some.injEq] at hs
              subst hs
              simp only [check_deps, hlp]
              rw [if_neg (by simp)]
              exact ih snap0 hrest

theorem get_dep_structure_check_deps (H : Bytes → String)
    (live : List (String × DepFile)) (reported sp : List String)
    (snap : List Dependency)
    (h : get_dep_structure H live reported sp = some snap) :
    check_deps H live snap = true :=
  check_deps_snapshotOf H live _ snap h

theorem get_dep_structure_excludes (H : Bytes → String)
    (live : List (String × DepFile)) (reported sp : List String)
    (snap : List Dependency)
    (h : get_dep_structure H live reported sp = some snap) :
    ∀ d, d ∈ snap → d.name ∉ sp := by
  intro d hd
  obtain ⟨hin, -⟩ := snapshotOf_mem H live _ snap h d hd
  have := List.mem_filter.mp hin
  simpa using this.2

theorem get_dep_structure_complete (H : Bytes → String)
    (live : List (String × DepFile)) (reported sp : List String)
    (snap : List Dependency)
    (h : get_dep_structure H live reported sp = some snap) :
    ∀ p, p ∈ reported → p ∉ sp →
      ∃ df, lookupA live p = some df ∧
        Dependency.mk p df.mtime (get_file_md5sum H df) ∈ snap := by
  intro p hp hnp
  apply snapshotOf_complete H live _ snap h p
  apply List.mem_filter.mpr
  constructor
  · rw [mem_sortStrings]
    exact List.mem_dedup.mpr hp
  · simpa using hnp

theorem write_source_go_preserve (key : String) :
    ∀ (ns : List String) (ss : List Bytes) (fs : List (String × Bytes)),
      key ∉ ns →
      lookupA (write_source_go fs ns ss).1 key = lookupA fs key := by
  intro ns
  induction ns with
  | nil =>
      intro ss fs hk
      cases ss with
      | nil => rfl
      | cons s rest => rfl
  | cons n ns0 ih =>
      intro ss fs hk
      cases ss with
      | nil => rfl
      | cons s rest =>
          have hkn : key ∉ ns0 := fun hmem => hk (List.mem_cons_of_mem n hmem)
          have hne : n ≠ key := fun heq => hk (heq ▸ List.mem_cons_self n ns0)
          simp only [write_source_go]
          rw [ih rest (setA fs n s) hkn, lookupA_setA_ne fs n key s hne]

theorem write_source_go_flag (ss : List Bytes) :
    ∀ (ns : List String) (fs : List (String × Bytes)),
      ss.length ≤ ns.length → (write_source_go fs ns ss).2 = true := by
  induction ss with
  | nil =>
      intro ns fs hlen
      cases ns with
      | nil => rfl
      | cons n ns0 => rfl
  | cons s rest ih =>
      intro ns fs hlen
      cases ns with
      | nil => simp at hlen
      | cons n ns0 =>
          simp only [write_source_go]
          exact ih ns0 (setA fs n s) (by simpa using hlen)

theorem write_source_go_lookup :
    ∀ (sn : List String) (ss : List Bytes) (fs files1 : List (String × Bytes)),
      sn.Nodup →
      write_source_go fs sn ss = (files1, true) →
      ∀ (i : Nat) (hi : i < sn.length) (hj : i < ss.length),
        lookupA files1 (sn.get ⟨i, hi⟩) = some (ss.get ⟨i, hj⟩) := by
  intro sn
  induction sn with
  | nil =>
      intro ss fs files1 hnd hw i hi hj
      simp at hi
  | cons n ns ih =>
      intro ss fs files1 hnd hw i hi hj
      cases ss with
      | nil => simp at hj
      | cons s rest =>
          simp only [write_source_go] at hw
          rcases List.nodup_cons.mp hnd with ⟨hnin, hnd0⟩
          cases i with
          | zero =>
              have hpres := write_source_go_preserve n ns rest (setA fs n s) hnin
              rw [hw] at hpres
              simp only [List.get] at *
              rw [hpres, lookupA_setA_self]
          | succ i0 =>
              exact ih rest (setA fs n s) files1 hnd0 hw i0
                (by simpa using hi) (by simpa using hj)

theorem check_source_go_true (files : List (String × Bytes)) (src : List Bytes) :
    ∀ (paths : List String) (i : Nat),
      (∀ (k : Nat) (hk : k < paths.length),
        ∃ s, src[i + k]? = some s ∧ lookupA files (paths.get ⟨k, hk⟩) = some s) →
      check_source_go files src true i paths = some true := by
  intro paths
  induction paths with
  | nil => intro i hp; rfl
  | cons p rest ih =>
      intro i hp
      obtain ⟨s, hs, hlp⟩ := hp 0 (by simp)
      simp only [Nat.add_zero] at hs
      simp only [List.get] at hlp
      simp only [check_source_go, hs, hlp]
      have heq : (true && decide True) = true := by simp
      rw [heq]
      apply ih (i + 1)
      intro k hk
      obtain ⟨s2, hs2, hlp2⟩ := hp (k + 1) (by simpa using Nat.succ_lt_succ hk)
      refine ⟨s2, ?_, ?_⟩
      · rw [show i + 1 + k = i + (k + 1) by omega]
        exact hs2
      · simpa using hlp2

theorem errorExit_res (e : RunResult) (hex : String) (fresh : Bool)
    (entryNow : Entry) (w : World) (bc : Nat) :
    (errorExit e hex fresh entryNow w bc).res = e := by
  unfold errorExit
  split <;> rfl

theorem errorExit_lockPresent (e : RunResult) (hex : String) (fresh : Bool)
    (entryNow : Entry) (w : World) (bc : Nat) :
    (errorExit e hex fresh entryNow w bc).world.lockPresent = false := by
  unfold errorExit
  split <;> rfl

theorem errorExit_fresh_entries (e : RunResult) (hex : String)
    (entryNow : Entry) (w : World) (bc : Nat) :
    lookupA (errorExit e hex true entryNow w bc).world.entries hex = none := by
  unfold errorExit
  simp only [if_pos rfl]
  exact lookupA_removeA_self w.entries hex

theorem errorExit_stale_entries (e : RunResult) (hex : String)
    (entryNow : Entry) (w : World) (bc : Nat) :
    lookupA (errorExit e hex false entryNow w bc).world.entries hex
      = some entryNow := by
  unfold errorExit
  simp only [Bool.false_eq_true, if_neg (fun h => h)]
  exact lookupA_setA_self w.entries hex entryNow

theorem doRebuild_success_eq (H : Bytes → String) (tc : ToolchainM)
    (name hex suffix : String) (ss : List Bytes) (sn sp : List String)
    (fresh : Bool) (entry0 : Entry) (w : World)
    (files1 : List (String × Bytes)) (snap : List Dependency)
    (hw : write_source_go entry0.files sn ss = (files1, true))
    (hb : tc.buildOk = true)
    (hsnap : get_dep_structure H w.deps (tc.getDeps sp) sp = some snap) :
    doRebuild H tc name hex suffix ss sn sp fresh entry0 w
      = ⟨RunResult.ok hex (mod_name_of hex name) (ext_file_of hex name suffix) true,
         ⟨w.deps,
          setA w.entries hex
            ⟨some (InfoFile.valid ⟨snap, sn⟩),
             setA files1 (name ++ suffix) tc.artifact⟩,
          false⟩,
         1⟩ := by
  unfold doRebuild
  rw [hw, hb, hsnap]
  simp

theorem doRebuild_compile_error_eq (H : Bytes → String) (tc : ToolchainM)
    (name hex suffix : String) (ss : List Bytes) (sn sp : List String)
    (fresh : Bool) (entry0 : Entry) (w : World)
    (files1 : List (String × Bytes))
    (hw : write_source_go entry0.files sn ss = (files1, true))
    (hb : tc.buildOk = false) :
    doRebuild H tc name hex suffix ss sn sp fresh entry0 w
      = errorExit RunResult.compileError hex fresh ⟨entry0.infoFile, files1⟩ w 1 := by
  unfold doRebuild
  rw [hw, hb]
  simp

theorem doRebuild_index_error_eq (H : Bytes → String) (tc : ToolchainM)
    (name hex suffix : String) (ss : List Bytes) (sn sp : List String)
    (fresh : Bool) (entry0 : Entry) (w : World)
    (files1 : List (String × Bytes))
    (hw : write_source_go entry0.files sn ss = (files1, false)) :
    doRebuild H tc name hex suffix ss sn sp fresh entry0 w
      = errorExit RunResult.indexError hex fresh ⟨entry0.infoFile, files1⟩ w 0 := by
  unfold doRebuild
  rw [hw]

theorem doRebuild_os_error_eq (H : Bytes → String) (tc : ToolchainM)
    (name hex suffix : String) (ss : List Bytes) (sn sp : List String)
    (fresh : Bool) (entry0 : Entry) (w : World)
    (files1 : List (String × Bytes))
    (hw : write_source_go entry0.files sn ss = (files1, true))
    (hb : tc.buildOk = true)
    (hsnap : get_dep_structure H w.deps (tc.getDeps sp) sp = none) :
    doRebuild H tc name hex suffix ss sn sp fresh entry0 w
      = errorExit RunResult.osError hex fresh
          ⟨entry0.infoFile, setA files1 (name ++ suffix) tc.artifact⟩ w 1 := by
  unfold doRebuild
  rw [hw, hb, hsnap]
  simp

theorem doRebuild_res_ok (H : Bytes → String) (tc : ToolchainM)
    (name hex suffix : String) (ss : List Bytes) (sn sp : List String)
    (fresh : Bool) (entry0 : Entry) (w : World) (c m e : String) (r : Bool)
    (h : (doRebuild H tc name hex suffix ss sn sp fresh entry0 w).res
          = RunResult.ok c m e r) :
    c = hex ∧ m = mod_name_of hex name ∧ e = ext_file_of hex name suffix ∧
    r = true ∧ tc.buildOk = true ∧
    ∃ files1 snap,
      write_source_go entry0.files sn ss = (files1, true) ∧
      get_dep_structure H w.deps (tc.getDeps sp) sp = some snap ∧
      doRebuild H tc name hex suffix ss sn sp fresh entry0 w
        = ⟨RunResult.ok hex (mod_name_of hex name)
              (ext_file_of hex name suffix) true,
           ⟨w.deps,
            setA w.entries hex
              ⟨some (InfoFile.valid ⟨snap, sn⟩),
               setA files1 (name ++ suffix) tc.artifact⟩,
            false⟩,
           1⟩ := by
  rcases hw : write_source_go entry0.files sn ss with ⟨files1, flag⟩
  cases flag with
  | false =>
      rw [doRebuild_index_error_eq H tc name hex suffix ss sn sp fresh entry0 w
            files1 hw, errorExit_res] at h
      simp at h
  | true =>
      cases hb : tc.buildOk with
      | false =>
          rw [doRebuild_compile_error_eq H tc name hex suffix ss sn sp fresh
                entry0 w files1 hw hb, errorExit_res] at h
          simp at h
      | true =>
          cases hsnap : get_dep_structure H w.deps (tc.getDeps sp) sp with
          | none =>
              rw [doRebuild_os_error_eq H tc name hex suffix ss sn sp fresh
                    entry0 w files1 hw hb hsnap, errorExit_res] at h
              simp at h
          | some snap =>
              have heq := doRebuild_success_eq H tc name hex suffix ss sn sp
                fresh entry0 w files1 snap hw hb hsnap
              rw [heq] at h
              simp only [RunResult.ok.injEq] at h
              obtain ⟨h1, h2, h3, h4⟩ := h
              subst h1
              subst h2
              subst h3
              subst h4
              exact ⟨rfl, rfl, rfl, rfl, rfl, files1, snap, rfl, rfl, heq⟩

theorem doRebuild_lockPresent (H : Bytes → String) (tc : ToolchainM)
    (name hex suffix : String) (ss : List Bytes) (sn sp : List String)
    (fresh : Bool) (entry0 : Entry) (w : World) :
    (doRebuild H tc name hex suffix ss sn sp fresh entry0 w).world.lockPresent
      = false := by
  rcases hw : write_source_go entry0.files sn ss with ⟨files1, flag⟩
  cases flag with
  | false =>
      rw [doRebuild_index_error_eq H tc name hex suffix ss sn sp fresh entry0 w
            files1 hw]
      exact errorExit_lockPresent _ _ _ _ _ _
  | true =>
      cases hb : tc.buildOk with
      | false =>
          rw [doRebuild_compile_error_eq H tc name hex suffix ss sn sp fresh
                entry0 w files1 hw hb]
          exact errorExit_lockPresent _ _ _ _ _ _
      | true =>
          cases hsnap : get_dep_structure H w.deps (tc.getDeps sp) sp with
          | none =>
              rw [doRebuild_os_error_eq H tc name hex suffix ss sn sp fresh
                    entry0 w files1 hw hb hsnap]
              exact errorExit_lockPresent _ _ _ _ _ _
          | some snap =>
              rw [doRebuild_success_eq H tc name hex suffix ss sn sp fresh
                    entry0 w files1 snap hw hb hsnap]


theorem lookup_and_build_hit (H : Bytes → String) (tc : ToolchainM)
    (name hex suffix : String) (ss : List Bytes) (sn sp : List String)
    (w : World) (entry : Entry) (si : SourceInfo)
    (hent : lookupA w.entries hex = some entry)
    (hinfo : entry.infoFile = some (InfoFile.valid si))
    (hdeps : check_deps H w.deps si.dependencies = true)
    (hsrc : check_source entry.files ss si.source_name = some true) :
    lookup_and_build H tc name hex suffix ss sn sp w
      = ⟨RunResult.ok hex (mod_name_of hex name)
            (ext_file_of hex name suffix) false,
         ⟨w.deps, w.entries, false⟩, 0⟩ := by
  simp only [lookup_and_build, hent, hinfo, hdeps, reduceIte, hsrc]

theorem lookup_and_build_ok (H : Bytes → String) (tc : ToolchainM)
    (name hex suffix : String) (ss : List Bytes) (sn sp : List String)
    (w : World) (c m e : String) (r : Bool)
    (h : (lookup_and_build H tc name hex suffix ss sn sp w).res
          = RunResult.ok c m e r) :
    c = hex ∧ m = mod_name_of hex name ∧ e = ext_file_of hex name suffix ∧
    ((r = false ∧
        (∃ entry si,
          lookupA w.entries hex = some entry ∧
          entry.infoFile = some (InfoFile.valid si) ∧
          check_deps H w.deps si.dependencies = true ∧
          check_source entry.files ss si.source_name = some true) ∧
        lookup_and_build H tc name hex suffix ss sn sp w
          = ⟨RunResult.ok hex (mod_name_of hex name)
                (ext_file_of hex name suffix) false,
             ⟨w.deps, w.entries, false⟩, 0⟩)
      ∨ (r = true ∧
          ∃ fs0 files1 snap,
            write_source_go fs0 sn ss = (files1, true) ∧
            get_dep_structure H w.deps (tc.getDeps sp) sp = some snap ∧
            lookup_and_build H tc name hex suffix ss sn sp w
              = ⟨RunResult.ok hex (mod_name_of hex name)
                    (ext_file_of hex name suffix) true,
                 ⟨w.deps,
                  setA w.entries hex
                    ⟨some (InfoFile.valid ⟨snap, sn⟩),
                     setA files1 (name ++ suffix) tc.artifact⟩,
                  false⟩,
                 1⟩)) := by
  cases hent : lookupA w.entries hex with
  | none =>
      simp only [lookup_and_build, hent] at h ⊢
      obtain ⟨h1, h2, h3, h4, h5, files1, snap, hw, hsnap, heq⟩ :=
        doRebuild_res_ok H tc name hex suffix ss sn sp true ⟨none, []⟩ w c m e r h
      refine ⟨h1, h2, h3, Or.inr ⟨h4, ?_⟩⟩
      exact ⟨Entry.files ⟨none, []⟩, files1, snap, hw, hsnap, heq⟩
  | some entry =>
      cases hinfo : entry.infoFile with
      | none =>
          simp only [lookup_and_build, hent, hinfo] at h ⊢
          obtain ⟨h1, h2, h3, h4, h5, files1, snap, hw, hsnap, heq⟩ :=
            doRebuild_res_ok H tc name hex suffix ss sn sp false ⟨none, []⟩ w
              c m e r h
          refine ⟨h1, h2, h3, Or.inr ⟨h4, ?_⟩⟩
          exact ⟨Entry.files ⟨none, []⟩, files1, snap, hw, hsnap, heq⟩
      | some info =>
          cases info with
          | corrupt =>
              simp only [lookup_and_build, hent, hinfo] at h ⊢
              obtain ⟨h1, h2, h3, h4, h5, files1, snap, hw, hsnap, heq⟩ :=
                doRebuild_res_ok H tc name hex suffix ss sn sp false ⟨none, []⟩
                  w c m e r h
              refine ⟨h1, h2, h3, Or.inr ⟨h4, ?_⟩⟩
              exact ⟨Entry.files ⟨none, []⟩, files1, snap, hw, hsnap, heq⟩
          | valid si =>
              cases hdeps : check_deps H w.deps si.dependencies with
              | false =>
                  simp only [lookup_and_build, hent, hinfo, hdeps,
                    reduceIte] at h ⊢
                  obtain ⟨h1, h2, h3, h4, h5, files1, snap, hw, hsnap, heq⟩ :=
                    doRebuild_res_ok H tc name hex suffix ss sn sp false entry
                      w c m e r h
                  refine ⟨h1, h2, h3, Or.inr ⟨h4, ?_⟩⟩
                  exact ⟨entry.files, files1, snap, hw, hsnap, heq⟩
              | true =>
                  cases hsrc : check_source entry.files ss si.source_name with
                  | none =>
                      simp only [lookup_and_build, hent, hinfo, hdeps,
                        reduceIte, hsrc] at h
                      simp at h
                  | some b =>
                      cases b with
                      | false =>
                          simp only [lookup_and_build, hent, hinfo, hdeps,
                            reduceIte, hsrc] at h ⊢
                          obtain ⟨h1, h2, h3, h4, h5, files1, snap, hw, hsnap,
                            heq⟩ :=
                            doRebuild_res_ok H tc name hex suffix ss sn sp
                              false entry w c m e r h
                          refine ⟨h1, h2, h3, Or.inr ⟨h4, ?_⟩⟩
                          exact ⟨entry.files, files1, snap, hw, hsnap, heq⟩
                      | true =>
                          simp only [lookup_and_build, hent, hinfo, hdeps,
                            reduceIte, hsrc] at h ⊢
                          simp only [RunResult.ok.injEq] at h
                          obtain ⟨h1, h2, h3, h4⟩ := h
                          subst h1
                          subst h2
                          subst h3
                          subst h4
                          exact ⟨rfl, rfl, rfl, Or.inl ⟨rfl,
                            ⟨entry, si, rfl, hinfo, hdeps, hsrc⟩, trivial⟩⟩

theorem lookup_and_build_lockPresent (H : Bytes → String) (tc : ToolchainM)
    (name hex suffix : String) (ss : List Bytes) (sn sp : List String)
    (w : World) :
    (lookup_and_build H tc name hex suffix ss sn sp w).world.lockPresent
      = false := by
  cases hent : lookupA w.entries hex with
  | none =>
      simp only [lookup_and_build, hent]
      exact doRebuild_lockPresent H tc name hex suffix ss sn sp true _ w
  | some entry =>
      cases hinfo : entry.infoFile with
      | none =>
          simp only [lookup_and_build, hent, hinfo]
          exact doRebuild_lockPresent H tc name hex suffix ss sn sp false _ w
      | some info =>
          cases info with
          | corrupt =>
              simp only [lookup_and_build, hent, hinfo]
              exact doRebuild_lockPresent H tc name hex suffix ss sn sp false _ w
          | valid si =>
              cases hdeps : check_deps H w.deps si.dependencies with
              | false =>
                  simp only [lookup_and_build, hent, hinfo, hdeps, reduceIte]
                  exact doRebuild_lockPresent H tc name hex suffix ss sn sp
                    false _ w
              | true =>
                  cases hsrc : check_source entry.files ss si.source_name with
                  | none =>
                      simp only [lookup_and_build, hent, hinfo, hdeps,
                        reduceIte, hsrc]
                  | some b =>
                      cases b with
                      | false =>
                          simp only [lookup_and_build, hent, hinfo, hdeps,
                            reduceIte, hsrc]
                          exact doRebuild_lockPresent H tc name hex suffix ss
                            sn sp false _ w
                      | true =>
                          simp only [lookup_and_build, hent, hinfo, hdeps,
                            reduceIte, hsrc]

theorem compile_eq_lookup_and_build (H : Bytes → String) (tc : ToolchainM)
    (name : String) (ss : List Bytes) (sn : List String) (object : Bool)
    (w : World) (hgcc : tc.isGccLike = true) (hlock : w.lockPresent = false) :
    compile_from_string H tc name ss sn object w
      = lookup_and_build H tc name (calculate_hex_checksum H ss tc.abi)
          (entrySuffix tc object) ss sn
          (source_paths_of (calculate_hex_checksum H ss tc.abi) sn) w := by
  simp only [compile_from_string, hgcc, hlock]
  simp

theorem check_source_after_write (sn : List String) (ss : List Bytes)
    (fs0 files1 : List (String × Bytes)) (a : String) (v : Bytes)
    (hnd : sn.Nodup) (hlen : sn.length = ss.length) (ha : a ∉ sn)
    (hw : write_source_go fs0 sn ss = (files1, true)) :
    check_source (setA files1 a v) ss sn = some true := by
  unfold check_source
  apply check_source_go_true
  intro k hk
  have hks : k < ss.length := hlen ▸ hk
  refine ⟨ss.get ⟨k, hks⟩, ?_, ?_⟩
  · rw [Nat.zero_add]
    simp [List.getElem?_eq_getElem hks]
  · have hmem : sn.get ⟨k, hk⟩ ∈ sn := List.get_mem sn k hk
    have hne : a ≠ sn.get ⟨k, hk⟩ := fun he => ha (by rw [he]; exact hmem)
    rw [lookupA_setA_ne files1 a (sn.get ⟨k, hk⟩) v hne]
    exact write_source_go_lookup sn ss fs0 files1 hnd hw k hk hks

/-- Claim C1: cache hit idempotence. If compile_from_string succeeds on a
compilation unit (any result, hit or rebuild) and is called again with
identical sources, source names, name and toolchain on the resulting world,
the second call returns rebuilt = false with the same checksum, module name
and artifact path as the first call, and invokes none of the toolchain
build operations. The hypotheses state a well-formed unit: as many source
names as sources, distinct source names, and an artifact file name that
does not collide with a source file name. -/
theorem claim_C1_cache_hit_idempotence (H : Bytes → String) (tc : ToolchainM)
    (name : String) (ss : List Bytes) (sn : List String) (object : Bool)
    (w : World) (c m e : String) (r : Bool)
    (hgcc : tc.isGccLike = true)
    (hlock : w.lockPresent = false)
    (hlen : sn.length = ss.length)
    (hnd : sn.Nodup)
    (hart : name ++ entrySuffix tc object ∉ sn)
    (h1 : (compile_from_string H tc name ss sn object w).res
            = RunResult.ok c m e r) :
    (compile_from_string H tc name ss sn object
        (compile_from_string H tc name ss sn object w).world).res
      = RunResult.ok c m e false ∧
    (compile_from_string H tc name ss sn object
        (compile_from_string H tc name ss sn object w).world).buildCalls
      = 0 := by
  have hC := compile_eq_lookup_and_build H tc name ss sn object w hgcc hlock
  rw [hC] at h1
  obtain ⟨hc, hm, he, hcase⟩ :=
    lookup_and_build_ok H tc name _ _ ss sn _ w c m e r h1
  subst hc
  subst hm
  subst he
  rcases hcase with ⟨hr, ⟨entry, si, hent, hinfo, hdeps, hsrc⟩, heq⟩ |
    ⟨hr, fs0, files1, snap, hw, hsnap, heq⟩
  · rw [hC, heq]
    dsimp only
    have hC2 := compile_eq_lookup_and_build H tc name ss sn object
      ⟨w.deps, w.entries, false⟩ hgcc rfl
    rw [hC2]
    rw [lookup_and_build_hit H tc name (calculate_hex_checksum H ss tc.abi)
          (entrySuffix tc object) ss sn
          (source_paths_of (calculate_hex_checksum H ss tc.abi) sn)
          ⟨w.deps, w.entries, false⟩ entry si hent hinfo hdeps hsrc]
    exact ⟨rfl, rfl⟩
  · rw [hC, heq]
    dsimp only
    have hC2 := compile_eq_lookup_and_build H tc name ss sn object
      ⟨w.deps,
       setA w.entries (calculate_hex_checksum H ss tc.abi)
         ⟨some (InfoFile.valid ⟨snap, sn⟩),
          setA files1 (name ++ entrySuffix tc object) tc.artifact⟩,
       false⟩ hgcc rfl
    rw [hC2]
    rw [lookup_and_build_hit H tc name (calculate_hex_checksum H ss tc.abi)
          (entrySuffix tc object) ss sn
          (source_paths_of (calculate_hex_checksum H ss tc.abi) sn)
          ⟨w.deps,
           setA w.entries (calculate_hex_checksum H ss tc.abi)
             ⟨some (InfoFile.valid ⟨snap, sn⟩),
              setA files1 (name ++ entrySuffix tc object) tc.artifact⟩,
           false⟩
          ⟨some (InfoFile.valid ⟨snap, sn⟩),
           setA files1 (name ++ entrySuffix tc object) tc.artifact⟩
          ⟨snap, sn⟩
          (lookupA_setA_self w.entries (calculate_hex_checksum H ss tc.abi) _)
          rfl
          (get_dep_structure_check_deps H w.deps _ _ snap hsnap)
          (check_source_after_write sn ss fs0 files1
            (name ++ entrySuffix tc object) tc.artifact hnd hlen hart hw)]
    exact ⟨rfl, rfl⟩

/-- Claim C2: dependency validation with mtime fallback. For a recorded
dependency record whose file is still accessible (lookup succeeds),
check_deps on that record fails (forcing a rebuild) if and only if the live
modification time differs from the recorded one AND the live content digest
differs from the recorded digest; in particular an mtime-only change with a
matching digest does not force a rebuild, while a change of both does. -/
theorem claim_C2_dep_validation_mtime_fallback (H : Bytes → String)
    (live : List (String × DepFile)) (d : Dependency) (df : DepFile)
    (hdf : lookupA live d.name = some df) :
    (check_deps H live [d] = false ↔
      (df.mtime ≠ d.mtime ∧ get_file_md5sum H df ≠ d.md5)) ∧
    (df.mtime ≠ d.mtime → get_file_md5sum H df = d.md5 →
      check_deps H live [d] = true) ∧
    (df.mtime ≠ d.mtime → get_file_md5sum H df ≠ d.md5 →
      check_deps H live [d] = false) := by
  have hone : check_deps H live [d]
      = (if df.mtime ≠ d.mtime ∧ d.md5 ≠ get_file_md5sum H df then false
         else true) := by
    simp only [check_deps, hdf]
  refine ⟨?_, ?_, ?_⟩
  · rw [hone]
    split
    · next hcond =>
        simp only [eq_self_iff_true, true_iff]
        exact ⟨hcond.1, fun hcc => hcond.2 hcc.symm⟩
    · next hcond =>
        constructor
        · intro hx
          exact absurd hx (by simp)
        · intro hx
          exact absurd ⟨hx.1, fun hcc => hx.2 hcc.symm⟩ hcond
  · intro hmt hmd
    rw [hone, if_neg]
    intro hcond
    exact hcond.2 hmd.symm
  · intro hmt hmd
    rw [hone, if_pos ⟨hmt, fun hcc => hmd hcc.symm⟩]

theorem acquire_lock_go_spec :
    ∀ (outcomes : List Bool) (a w0 : Nat) (r : LockAcquireResult),
      acquire_lock outcomes a w0 = some r →
      a ≤ r.attemptsUsed ∧
      outcomes[r.attemptsUsed - a]? = some true ∧
      w0 ≤ r.warnings ∧
      r.warnings - w0 = r.attemptsUsed - max a 10 := by
  intro outcomes
  induction outcomes with
  | nil =>
      intro a w0 r h
      exact absurd h (by simp [acquire_lock])
  | cons o rest ih =>
      intro a w0 r h
      cases o with
      | true =>
          simp only [acquire_lock, Option.some.injEq] at h
          subst h
          refine ⟨Nat.le_refl a, ?_, Nat.le_refl w0, ?_⟩
          · simp
          · dsimp only
            omega
      | false =>
          simp only [acquire_lock] at h
          by_cases hc : a + 1 > 10
          · rw [if_pos hc] at h
            obtain ⟨h1, h2, h3, h4⟩ := ih (a + 1) (w0 + 1) r h
            refine ⟨by omega, ?_, by omega, by omega⟩
            have hstep : r.attemptsUsed - a = (r.attemptsUsed - (a + 1)) + 1 := by
              omega
            rw [hstep]
            simpa using h2
          · rw [if_neg hc] at h
            obtain ⟨h1, h2, h3, h4⟩ := ih (a + 1) w0 r h
            refine ⟨by omega, ?_, by omega, by omega⟩
            have hstep : r.attemptsUsed - a = (r.attemptsUsed - (a + 1)) + 1 := by
              omega
            rw [hstep]
            simpa using h2

/-- Claim C3, counterexample to the claim as stated: the claim says that
after more than 10 failed attempts the acquisition proceeds anyway,
returning control to the build without the lock. In the model of the loop
at jit.py lines 138-156, after 12 consecutive failed exclusive-create
attempts the call has not returned at all (with or without the lock): the
loop is still retrying. -/
theorem claim_C3_counterexample :
    acquire_lock (List.replicate 12 false) 0 0 = none := by decide

/-- Claim C3 (amended): the retry loop never gives up and never proceeds
without the lock: whenever CacheLockManager.__init__ returns, the exclusive
create at attempt index attemptsUsed actually succeeded (the lock is held),
and one non-fatal warning was emitted for every failed attempt beyond the
tenth; lock contention never raises. -/
theorem claim_C3_lock_retry_amended (outcomes : List Bool)
    (r : LockAcquireResult) (h : acquire_lock outcomes 0 0 = some r) :
    outcomes[r.attemptsUsed]? = some true ∧
    r.warnings = r.attemptsUsed - 10 := by
  obtain ⟨h1, h2, h3, h4⟩ := acquire_lock_go_spec outcomes 0 0 r h
  constructor
  · simpa using h2
  · omega

/-- Claim C4: the code at this failing input. Passing the documented
no-cache sentinel False as cache_dir does not disable caching and proceed
with a forced-miss build: the defaulting step (jit.py lines 316-331) passes
False through, and CacheLockManager.__init__ (lines 135-136) then calls
os.path.join(False, "lock"), which raises TypeError - contradicting the
docstring of compile_from_string, which promises that no caching is
performed when cache_dir is False. Passing None, by contrast, yields the
default cache root and its lock file. -/
theorem claim_C4_cache_dir_false_raises (defaultRoot : String) :
    cache_dir_setup defaultRoot CacheDirArg.falseArg
      = Except.error RunResult.typeError ∧
    cache_dir_setup defaultRoot CacheDirArg.noneArg
      = Except.ok (some (defaultRoot ++ "/lock")) :=
  ⟨rfl, rfl⟩

/-- Claim C5: corrupt manifest recovery. When the entry directory for the
fingerprint pre-exists but its manifest is unreadable or fails to
deserialize, the call resets the entry (its old contents are fully erased:
the rebuild below starts from the empty directory, not from entry.files),
proceeds to a rebuild, and returns rebuilt = true with exactly one
toolchain build invocation; the corruption is never surfaced as an error
and never treated as a valid manifest. -/
theorem claim_C5_corrupt_manifest_recovery (H : Bytes → String)
    (tc : ToolchainM) (name : String) (ss : List Bytes) (sn : List String)
    (object : Bool) (w : World) (entry : Entry)
    (files1 : List (String × Bytes)) (snap : List Dependency)
    (hgcc : tc.isGccLike = true) (hlock : w.lockPresent = false)
    (hent : lookupA w.entries (calculate_hex_checksum H ss tc.abi)
              = some entry)
    (hinfo : entry.infoFile = some InfoFile.corrupt ∨ entry.infoFile = none)
    (hb : tc.buildOk = true)
    (hw : write_source_go [] sn ss = (files1, true))
    (hsnap : get_dep_structure H w.deps
        (tc.getDeps (source_paths_of (calculate_hex_checksum H ss tc.abi) sn))
        (source_paths_of (calculate_hex_checksum H ss tc.abi) sn)
      = some snap) :
    compile_from_string H tc name ss sn object w
      = ⟨RunResult.ok (calculate_hex_checksum H ss tc.abi)
            (mod_name_of (calculate_hex_checksum H ss tc.abi) name)
            (ext_file_of (calculate_hex_checksum H ss tc.abi) name
              (entrySuffix tc object)) true,
         ⟨w.deps,
          setA w.entries (calculate_hex_checksum H ss tc.abi)
            ⟨some (InfoFile.valid ⟨snap, sn⟩),
             setA files1 (name ++ entrySuffix tc object) tc.artifact⟩,
          false⟩,
         1⟩ := by
  rw [compile_eq_lookup_and_build H tc name ss sn object w hgcc hlock]
  rcases hinfo with hi | hi
  · simp only [lookup_and_build, hent, hi]
    exact doRebuild_success_eq H tc name _ _ ss sn _ false ⟨none, []⟩ w
      files1 snap hw hb hsnap
  · simp only [lookup_and_build, hent, hi]
    exact doRebuild_success_eq H tc name _ _ ss sn _ false ⟨none, []⟩ w
      files1 snap hw hb hsnap

/-- Claim C6: a fatal error leaves no half-written entry. When the
toolchain build raises CompileError, the call exits with that error and:
if the entry directory for the fingerprint was freshly created by this call
(it did not exist before), the error cleanup erases it, so a later call
finds no entry; if it pre-existed (here: it existed with a corrupt
manifest, which forces the failing rebuild), the error path does not erase
it. Both cases are captured by the entry existing after the call exactly
when it existed before it. -/
theorem claim_C6_error_leaves_no_fresh_entry (H : Bytes → String)
    (tc : ToolchainM) (name : String) (ss : List Bytes) (sn : List String)
    (object : Bool) (w : World)
    (hgcc : tc.isGccLike = true) (hlock : w.lockPresent = false)
    (hlen : ss.length ≤ sn.length) (hb : tc.buildOk = false)
    (hstart : lookupA w.entries (calculate_hex_checksum H ss tc.abi) = none ∨
      (∃ entry, lookupA w.entries (calculate_hex_checksum H ss tc.abi)
          = some entry ∧ entry.infoFile = some InfoFile.corrupt)) :
    (compile_from_string H tc name ss sn object w).res
      = RunResult.compileError ∧
    (lookupA (compile_from_string H tc name ss sn object w).world.entries
        (calculate_hex_checksum H ss tc.abi)).isSome
      = (lookupA w.entries (calculate_hex_checksum H ss tc.abi)).isSome := by
  rw [compile_eq_lookup_and_build H tc name ss sn object w hgcc hlock]
  have hwt : (write_source_go ([] : List (String × Bytes)) sn ss).2 = true :=
    write_source_go_flag ss sn [] hlen
  rcases hwp : write_source_go ([] : List (String × Bytes)) sn ss with
    ⟨files1, flag⟩
  rw [hwp] at hwt
  simp only at hwt
  subst hwt
  rcases hstart with hent | ⟨entry, hent, hcorrupt⟩
  · simp only [lookup_and_build, hent]
    rw [doRebuild_compile_error_eq H tc name _ _ ss sn _ true ⟨none, []⟩ w
          files1 hwp hb]
    refine ⟨errorExit_res _ _ _ _ _ _, ?_⟩
    rw [errorExit_fresh_entries]
  · simp only [lookup_and_build, hent, hcorrupt]
    rw [doRebuild_compile_error_eq H tc name _ _ ss sn _ false ⟨none, []⟩ w
          files1 hwp hb]
    refine ⟨errorExit_res _ _ _ _ _ _, ?_⟩
    rw [errorExit_stale_entries]
    rfl

/-- Claim C7: unconditional lock release. For every call with a cache
directory in use in which the exclusive create of the lock file succeeds
(modelled: the toolchain guard passes and no lock file pre-exists, so the
loop acquires on the first attempt), the lock file is gone from the cache
root when the call returns - on the hit path, the rebuilt path, and every
exceptional path alike (the finally block runs CacheLockManager.clean_up
unconditionally). -/
theorem claim_C7_unconditional_lock_release (H : Bytes → String)
    (tc : ToolchainM) (name : String) (ss : List Bytes) (sn : List String)
    (object : Bool) (w : World)
    (hgcc : tc.isGccLike = true) (hlock : w.lockPresent = false) :
    (compile_from_string H tc name ss sn object w).world.lockPresent
      = false := by
  rw [compile_eq_lookup_and_build H tc name ss sn object w hgcc hlock]
  exact lookup_and_build_lockPresent H tc name _ _ ss sn _ w

/-- Claim C8: fingerprint determinism. calculate_hex_checksum is a pure
function of the ordered list of source byte strings and the serialized
toolchain identity: equal inputs yield equal digests, and the digest is the
digest function applied to the concatenation of all source byte strings in
order followed by the serialized toolchain identity. -/
theorem claim_C8_fingerprint_determinism (H : Bytes → String)
    (s1 s2 : List Bytes) (a1 a2 : Bytes) (hs : s1 = s2) (ha : a1 = a2) :
    calculate_hex_checksum H s1 a1 = calculate_hex_checksum H s2 a2 ∧
    calculate_hex_checksum H s1 a1 = H (s1.flatten ++ a1) := by
  subst hs
  subst ha
  exact ⟨rfl, calculate_hex_checksum_eq H s1 a1⟩

/-- Claim C9: the dependency snapshot excludes the unit's own sources. For
every successful rebuild, the persisted manifest records, for each path in
the dependency set reported by the toolchain for the just-compiled source
paths other than those source paths themselves, that path with its current
modification time and content digest - and no compiled source path ever
appears in the recorded dependency list. -/
theorem claim_C9_snapshot_excludes_sources (H : Bytes → String)
    (tc : ToolchainM) (name : String) (ss : List Bytes) (sn : List String)
    (object : Bool) (w : World) (c m e : String)
    (hgcc : tc.isGccLike = true) (hlock : w.lockPresent = false)
    (h1 : (compile_from_string H tc name ss sn object w).res
            = RunResult.ok c m e true) :
    ∃ snap files,
      lookupA (compile_from_string H tc name ss sn object w).world.entries c
        = some ⟨some (InfoFile.valid ⟨snap, sn⟩), files⟩ ∧
      (∀ d, d ∈ snap → d.name ∉ source_paths_of c sn) ∧
      (∀ p, p ∈ tc.getDeps (source_paths_of c sn) →
        p ∉ source_paths_of c sn →
        ∃ df, lookupA w.deps p = some df ∧
          Dependency.mk p df.mtime (get_file_md5sum H df) ∈ snap) := by
  have hC := compile_eq_lookup_and_build H tc name ss sn object w hgcc hlock
  rw [hC] at h1
  obtain ⟨hc, hm, he, hcase⟩ :=
    lookup_and_build_ok H tc name _ _ ss sn _ w c m e true h1
  subst hc
  subst hm
  subst he
  rcases hcase with ⟨hr, -, -⟩ | ⟨-, fs0, files1, snap, hw, hsnap, heq⟩
  · exact absurd hr (by simp)
  · refine ⟨snap, setA files1 (name ++ entrySuffix tc object) tc.artifact,
      ?_, ?_, ?_⟩
    · rw [hC, heq]
      dsimp only
      exact lookupA_setA_self w.entries (calculate_hex_checksum H ss tc.abi) _
    · exact fun d hd => get_dep_structure_excludes H w.deps _ _ snap hsnap d hd
    · exact fun p hp hnp =>
        get_dep_structure_complete H w.deps _ _ snap hsnap p hp hnp

/-- Claim C10: implicit toolchain-type precondition. A call whose toolchain
is not a GCCLikeToolchain raises TypeError immediately: before any lock
file is created, any fingerprint computed, or any cache entry touched, so
the returned world is exactly the input world and no build was invoked. -/
theorem claim_C10_toolchain_type_guard (H : Bytes → String)
    (tc : ToolchainM) (name : String) (ss : List Bytes) (sn : List String)
    (object : Bool) (w : World) (hngcc : tc.isGccLike = false) :
    compile_from_string H tc name ss sn object w
      = ⟨RunResult.typeError, w, 0⟩ := by
  simp [compile_from_string, hngcc]

/-- A concrete executable digest function for witnesses. -/
def H0 : Bytes → String := fun bs => "h" ++ toString bs.length

/-- A concrete well-behaved toolchain for witnesses. -/
def tcW : ToolchainM :=
  { isGccLike := true
    abi := [7]
    o_ext := ".o"
    so_ext := ".so"
    getDeps := fun _ => [("dep.h")]
    buildOk := true
    artifact := [9, 9] }

/-- The witness toolchain with a failing build step. -/
def tcBad : ToolchainM := { tcW with buildOk := false }

/-- The witness toolchain that is not GCC-like. -/
def tcOther : ToolchainM := { tcW with isGccLike := false }

/-- A witness world: one live dependency file, an empty cache, no lock. -/
def w0 : World := ⟨[(("dep.h"), ⟨5, [1]⟩)], [], false⟩

/-- A witness world whose cache entry for the fingerprint of the witness
unit has a corrupt manifest and a leftover file. -/
def wC5 : World :=
  ⟨[(("dep.h"), ⟨5, [1]⟩)],
   [(("h3"), ⟨some InfoFile.corrupt, [(("junk"), [0])]⟩)],
   false⟩

/-- Witness dependency snapshot record and live file for claim C2. -/
def liveW : List (String × DepFile) := [(("dep.h"), ⟨5, [1]⟩)]

def depW : Dependency := ⟨("dep.h"), 6, ("zz")⟩

def dfW : DepFile := ⟨5, [1]⟩

/-- Witness outcome stream for claim C3: 12 failed attempts, then one
successful exclusive create. -/
def outcomesW : List Bool := List.replicate 12 false ++ [true]

theorem claim_C1_witness :
    (compile_from_string H0 tcW ("m") [[1, 2]] ([("a.cpp")]) false
        (compile_from_string H0 tcW ("m") [[1, 2]] ([("a.cpp")]) false
          w0).world).res
      = RunResult.ok ("h3") ("codepy.temp.h3.m") ("h3/m.so") false ∧
    (compile_from_string H0 tcW ("m") [[1, 2]] ([("a.cpp")]) false
        (compile_from_string H0 tcW ("m") [[1, 2]] ([("a.cpp")]) false
          w0).world).buildCalls
      = 0 :=
  claim_C1_cache_hit_idempotence H0 tcW ("m") [[1, 2]] ([("a.cpp")]) false w0
    ("h3") ("codepy.temp.h3.m") ("h3/m.so") true rfl rfl (by decide)
    (by decide) (by decide) (by decide)

theorem claim_C2_witness :
    (check_deps H0 liveW [depW] = false ↔
      (dfW.mtime ≠ depW.mtime ∧ get_file_md5sum H0 dfW ≠ depW.md5)) ∧
    (dfW.mtime ≠ depW.mtime → get_file_md5sum H0 dfW = depW.md5 →
      check_deps H0 liveW [depW] = true) ∧
    (dfW.mtime ≠ depW.mtime → get_file_md5sum H0 dfW ≠ depW.md5 →
      check_deps H0 liveW [depW] = false) :=
  claim_C2_dep_validation_mtime_fallback H0 liveW depW dfW (by decide)

theorem claim_C3_witness :
    outcomesW[(⟨12, 2⟩ : LockAcquireResult).attemptsUsed]? = some true ∧
    (⟨12, 2⟩ : LockAcquireResult).warnings
      = (⟨12, 2⟩ : LockAcquireResult).attemptsUsed - 10 :=
  claim_C3_lock_retry_amended outcomesW ⟨12, 2⟩ (by decide)

theorem claim_C5_witness :
    compile_from_string H0 tcW ("m") [[1, 2]] ([("a.cpp")]) false wC5
      = ⟨RunResult.ok ("h3") ("codepy.temp.h3.m") ("h3/m.so") true,
         ⟨wC5.deps,
          setA wC5.entries ("h3")
            ⟨some (InfoFile.valid ⟨[⟨("dep.h"), 5, ("h1")⟩], [("a.cpp")]⟩),
             setA [(("a.cpp"), [1, 2])] ("m.so") [9, 9]⟩,
          false⟩,
         1⟩ :=
  claim_C5_corrupt_manifest_recovery H0 tcW ("m") [[1, 2]] ([("a.cpp")])
    false wC5 ⟨some InfoFile.corrupt, [(("junk"), [0])]⟩
    [(("a.cpp"), [1, 2])] [⟨("dep.h"), 5, ("h1")⟩] rfl rfl (by decide)
    (Or.inl rfl) rfl (by decide) (by decide)

theorem claim_C6_witness :
    (compile_from_string H0 tcBad ("m") [[1, 2]] ([("a.cpp")]) false w0).res
      = RunResult.compileError ∧
    (lookupA (compile_from_string H0 tcBad ("m") [[1, 2]] ([("a.cpp")]) false
          w0).world.entries
        (calculate_hex_checksum H0 [[1, 2]] tcBad.abi)).isSome
      = (lookupA w0.entries
          (calculate_hex_checksum H0 [[1, 2]] tcBad.abi)).isSome :=
  claim_C6_error_leaves_no_fresh_entry H0 tcBad ("m") [[1, 2]] ([("a.cpp")])
    false w0 rfl rfl (by decide) rfl (Or.inl (by decide))

theorem claim_C7_witness :
    (compile_from_string H0 tcW ("m") [[1, 2]] ([("a.cpp")]) false
        w0).world.lockPresent = false :=
  claim_C7_unconditional_lock_release H0 tcW ("m") [[1, 2]] ([("a.cpp")])
    false w0 rfl rfl

theorem claim_C8_witness :
    calculate_hex_checksum H0 [[1], [2]] [3]
      = calculate_hex_checksum H0 [[1], [2]] [3] ∧
    calculate_hex_checksum H0 [[1], [2]] [3]
      = H0 (([[1], [2]] : List Bytes).flatten ++ [3]) :=
  claim_C8_fingerprint_determinism H0 [[1], [2]] [[1], [2]] [3] [3] rfl rfl

theorem claim_C9_witness :
    ∃ snap files,
      lookupA (compile_from_string H0 tcW ("m") [[1, 2]] ([("a.cpp")]) false
          w0).world.entries ("h3")
        = some ⟨some (InfoFile.valid ⟨snap, [("a.cpp")]⟩), files⟩ ∧
      (∀ d, d ∈ snap → d.name ∉ source_paths_of ("h3") ([("a.cpp")])) ∧
      (∀ p, p ∈ tcW.getDeps (source_paths_of ("h3") ([("a.cpp")])) →
        p ∉ source_paths_of ("h3") ([("a.cpp")]) →
        ∃ df, lookupA w0.deps p = some df ∧
          Dependency.mk p df.mtime (get_file_md5sum H0 df) ∈ snap) :=
  claim_C9_snapshot_excludes_sources H0 tcW ("m") [[1, 2]] ([("a.cpp")])
    false w0 ("h3") ("codepy.temp.h3.m") ("h3/m.so") rfl rfl (by decide)

theorem claim_C10_witness :
    compile_from_string H0 tcOther ("m") [[1, 2]] ([("a.cpp")]) false w0
      = ⟨RunResult.typeError, w0, 0⟩ :=
  claim_C10_toolchain_type_guard H0 tcOther ("m") [[1, 2]] ([("a.cpp")])
    false w0 rfl
